import Mathlib

/-
Verification of PyUnitWizard's core parsing and error-handling logic
(src/pyunitwizard/parse.py and src/pyunitwizard/_private/exceptions/no_standards_error.py).

Python strings are modelled as lists of characters; Python's `str.rfind`
returns the index of the last occurrence of a character, or -1 when absent,
and is modelled as an Int-valued function.  Quantities produced by the
external libraries (pint and the translation matrix of converters) are
modelled symbolically: the verification concerns the routing, splitting and
error logic of the repository, which never inspects the payloads it routes.
-/

namespace PUW

/-- A Python string, modelled as its list of characters. -/
abbrev PyStr := List Char

/-- Python's `string.rfind(c)`: the index of the last occurrence of the
character `c` in the string, or `-1` when `c` does not occur. -/
def rfind : PyStr → Char → Int
  | [], _ => -1
  | a :: l, c =>
    if rfind l c ≥ 0 then rfind l c + 1
    else if a = c then 0 else -1

theorem rfind_ge_neg_one (s : PyStr) (c : Char) : -1 ≤ rfind s c := by
  induction s with
  | nil => simp [rfind]
  | cons a l ih =>
    simp only [rfind]
    split
    · omega
    · split <;> omega

theorem rfind_lt_length (s : PyStr) (c : Char) : rfind s c < (s.length : Int) := by
  induction s with
  | nil => simp [rfind]
  | cons a l ih =>
    simp only [rfind, List.length_cons]
    push_cast
    split
    · omega
    · split <;> omega

theorem rfind_of_not_mem (s : PyStr) (c : Char) (h : c ∉ s) : rfind s c = -1 := by
  induction s with
  | nil => simp [rfind]
  | cons a l ih =>
    simp only [List.mem_cons, not_or] at h
    show (if rfind l c ≥ 0 then rfind l c + 1 else if a = c then 0 else -1) = -1
    rw [ih h.2, if_neg (by omega), if_neg (Ne.symm h.1)]

/-- When `c` does not occur in `v`, the last occurrence of `c` in
`u ++ c :: v` is the occurrence shown, at index `u.length`. -/
theorem rfind_append_last (u v : PyStr) (c : Char) (hv : c ∉ v) :
    rfind (u ++ c :: v) c = (u.length : Int) := by
  induction u with
  | nil =>
    show (if rfind v c ≥ 0 then rfind v c + 1 else if c = c then 0 else -1) =
      (([] : PyStr).length : Int)
    rw [rfind_of_not_mem v c hv, if_neg (by omega), if_pos rfl]
    simp
  | cons a u ih =>
    show (if rfind (u ++ c :: v) c ≥ 0 then rfind (u ++ c :: v) c + 1
          else if a = c then 0 else -1) = ((u.length + 1 : Nat) : Int)
    rw [ih, if_pos (by omega)]
    push_cast
    ring

/-- A character `d` other than `c` and absent from `v` has the same last
occurrence in `u ++ c :: v` as in `u`. -/
theorem rfind_append_of_ne (u v : PyStr) (c d : Char) (hdc : d ≠ c) (hv : d ∉ v) :
    rfind (u ++ c :: v) d = rfind u d := by
  induction u with
  | nil =>
    show (if rfind v d ≥ 0 then rfind v d + 1 else if c = d then 0 else -1) = rfind [] d
    rw [rfind_of_not_mem v d hv, if_neg (by omega), if_neg (Ne.symm hdc)]
    rfl
  | cons a u ih =>
    show (if rfind (u ++ c :: v) d ≥ 0 then rfind (u ++ c :: v) d + 1
          else if a = d then 0 else -1) =
      (if rfind u d ≥ 0 then rfind u d + 1 else if a = d then 0 else -1)
    rw [ih]

/-- Modelled from the spec: quantities built by the external libraries and the
translation matrix `dict_translate_quantity` (pyunitwizard/forms, not included
in the sources).  The spec (section 4.2) treats converters as opaque pure
functions keyed by the ordered pair of form identifiers, so quantity values are
modelled symbolically:
`fromString target text` is `dict_translate_quantity['string'][target](text)`
(for pint, the native parse of `text`, i.e. one unit of `text` when `text` is a
bare unit string); `litMul payload q` is `ast.literal_eval(payload) * q`; and
`conv source target q` is `dict_translate_quantity[source][target](q)`. -/
inductive Quantity where
  | fromString (target : String) (text : PyStr)
  | litMul (payload : PyStr) (q : Quantity)
  | conv (source target : String) (q : Quantity)
deriving DecidableEq

/-- The taxonomy of exceptions raised by `parse` and the digestion layer.
`badCall` and `notImplementedParsing` embed `BadCallError(argument)` and
`NotImplementedParsingError(parser, to_form)` (classes of the repository not
included in the sources; their payloads follow the call sites in
src/pyunitwizard/parse.py and the spec's section 7 table).
`libraryWithoutParser` embeds `LibraryWithoutParserError(library)` from
src/pyunitwizard/_private/exceptions/no_standards_error.py. -/
inductive PUWError where
  | badCall (argument : String)
  | unknownForm
  | notImplementedParsing (parser to_form : String)
  | libraryWithoutParser (library : String)
deriving DecidableEq

/-- A Python value passed as the first argument of `parse`: a string, or one of
the non-string values the `isinstance(string, str)` guard rejects. -/
inductive PyValue where
  | str (s : PyStr)
  | intVal (n : Int)
  | noneVal
deriving DecidableEq

def PyValue.isStr : PyValue → Bool
  | .str _ => true
  | _ => false

def PyValue.getStr : PyValue → PyStr
  | .str s => s
  | _ => []

/-- `end_list = max(string.rfind(')')+1, string.rfind(']')+1)` from
`_parse_with_pint` in src/pyunitwizard/parse.py.  Each `rfind` is `-1` when its
character is absent, so the maximum is at least `0`. -/
def end_list (string : PyStr) : Nat :=
  (max (rfind string ')' + 1) (rfind string ']' + 1)).toNat

/-- `value_string = string[:end_list]` from `_parse_with_pint`. -/
def value_string (string : PyStr) : PyStr := string.take (end_list string)

/-- `unit_string = string[end_list:]` from `_parse_with_pint`. -/
def unit_string (string : PyStr) : PyStr := string.drop (end_list string)

/-- `_parse_with_pint` from src/pyunitwizard/parse.py: a string starting with
`[` or `(` is split at `end_list` into a literal-sequence payload and a unit
string, and the result is `ast.literal_eval(value_string) *
dict_translate_quantity['string']['pint'](unit_string)`; any other string is
handed whole to `dict_translate_quantity['string']['pint']`. -/
def _parse_with_pint (string : PyStr) : Quantity :=
  if string.head? = some '[' ∨ string.head? = some '(' then
    Quantity.litMul (value_string string)
      (Quantity.fromString "pint" (unit_string string))
  else
    Quantity.fromString "pint" string

/-- Lowercasing of an ASCII letter, for the case normalization of form
identifiers. -/
def lowerChar (c : Char) : Char :=
  if 'A' ≤ c ∧ c ≤ 'Z' then Char.ofNat (c.toNat + 32) else c

/-- Lowercasing of a form identifier. -/
def lowerStr (s : String) : String := String.mk (s.data.map lowerChar)

/-- Modelled from the spec: `digest_parser` (pyunitwizard/_private/parsers.py,
not included in the sources).  Per spec section 4.1 it normalizes the candidate
(normalization is modelled as lowercasing ASCII letters; the spec fixes no
alias table) and checks membership in the closed set of parser-capable forms,
raising `UnknownFormError` otherwise; an absent candidate selects the default
parser, pint.  Named `digestParser` after the spec's contract name. -/
def digestParser (candidate : Option String) : Except PUWError String :=
  match candidate with
  | none => .ok "pint"
  | some s =>
    let n := lowerStr s
    if n ∈ ["pint", "openmm.unit", "unyt"] then .ok n else .error .unknownForm

/-- Modelled from the spec: `digest_to_form` (pyunitwizard/_private/forms.py,
not included in the sources).  Per spec section 4.1 it normalizes the candidate
and checks membership in the closed set of supported target forms; per section
4.3 an absent candidate defaults to the parser's native form, pint. -/
def digestToForm (candidate : Option String) : Except PUWError String :=
  match candidate with
  | none => .ok "pint"
  | some s =>
    let n := lowerStr s
    if n ∈ ["pint", "openmm.unit", "string", "unyt"] then .ok n
    else .error .unknownForm

/-- The dispatch on the digested `parser` and `to_form` identifiers: the
`if`/`elif` chain of `parse` in src/pyunitwizard/parse.py after the two digest
calls. -/
def parse_dispatch (parser to_form : String) (string : PyStr) :
    Except PUWError Quantity :=
  if parser = "pint" then
    if to_form = "pint" then
      .ok (_parse_with_pint string)
    else if to_form = "openmm.unit" then
      .ok (.conv "pint" "openmm.unit" (_parse_with_pint string))
    else if to_form = "string" then
      .ok (.conv "pint" "string" (_parse_with_pint string))
    else if to_form = "unyt" then
      .ok (.conv "pint" "unyt" (_parse_with_pint string))
    else
      .error (.notImplementedParsing parser to_form)
  else if parser = "openmm.unit" then
    .error (.libraryWithoutParser "openmm.unit")
  else if parser = "unyt" then
    .error (.libraryWithoutParser "unyt")
  else
    .error (.notImplementedParsing parser to_form)

/-- `parse` from src/pyunitwizard/parse.py: reject non-string input with
`BadCallError('string')`, digest the parser and target form, then dispatch. -/
def parse (string : PyValue) (parser to_form : Option String) :
    Except PUWError Quantity :=
  if string.isStr = true then
    match digestParser parser with
    | .error e => .error e
    | .ok pf =>
      match digestToForm to_form with
      | .error e => .error e
      | .ok tf => parse_dispatch pf tf string.getStr
  else
    .error (.badCall "string")

/-- The split point one past the last closing bracket: writing the input as
`u ++ c :: v` with `c` a closing bracket and no closing bracket in `v`, the
last occurrence of `)` or `]` is at index `u.length` and
`end_list = u.length + 1`. -/
theorem end_list_append_last_closing (u v : PyStr) (c : Char)
    (hc : c = ')' ∨ c = ']') (hv1 : ')' ∉ v) (hv2 : ']' ∉ v) :
    end_list (u ++ c :: v) = u.length + 1 := by
  rcases hc with hc | hc <;> subst hc
  · have h1 : rfind (u ++ ')' :: v) ')' = (u.length : Int) :=
      rfind_append_last u v ')' hv1
    have h2 : rfind (u ++ ')' :: v) ']' = rfind u ']' :=
      rfind_append_of_ne u v ')' ']' (by decide) hv2
    have h3 : rfind u ']' < (u.length : Int) := rfind_lt_length u ']'
    unfold end_list
    rw [h1, h2, max_eq_left (by omega)]
    omega
  · have h1 : rfind (u ++ ']' :: v) ']' = (u.length : Int) :=
      rfind_append_last u v ']' hv2
    have h2 : rfind (u ++ ']' :: v) ')' = rfind u ')' :=
      rfind_append_of_ne u v ']' ')' (by decide) hv1
    have h3 : rfind u ')' < (u.length : Int) := rfind_lt_length u ')'
    unfold end_list
    rw [h1, h2, max_eq_right (by omega)]
    omega

/-- C1: for every input string that starts with `[` or `(`, the split point is
one past the last occurrence in the whole string of `)` or `]` (whichever is
later): writing the input as `u ++ c :: v` where `c` is a closing bracket and
no closing bracket occurs in `v` (so the last closing bracket sits at index
`u.length`), the split point is `u.length + 1`, the payload substring is
`u ++ [c]` (up to and including that bracket), the unit substring is `v`
(everything after it), and `_parse_with_pint` returns the parsed literal
sequence payload multiplied by one unit of the unit string, i.e.
`ast.literal_eval(u ++ [c]) * dict_translate_quantity['string']['pint'](v)`. -/
theorem parse_with_pint_split_last_closing (u v : PyStr) (c : Char)
    (hb : (u ++ c :: v).head? = some '[' ∨ (u ++ c :: v).head? = some '(')
    (hc : c = ')' ∨ c = ']') (hv1 : ')' ∉ v) (hv2 : ']' ∉ v) :
    end_list (u ++ c :: v) = u.length + 1 ∧
    value_string (u ++ c :: v) = u ++ [c] ∧
    unit_string (u ++ c :: v) = v ∧
    _parse_with_pint (u ++ c :: v) =
      Quantity.litMul (u ++ [c]) (Quantity.fromString "pint" v) := by
  have hend := end_list_append_last_closing u v c hc hv1 hv2
  have hsplit : u ++ c :: v = (u ++ [c]) ++ v := by simp
  have hlen : (u ++ [c]).length = u.length + 1 := by simp
  have hval : value_string (u ++ c :: v) = u ++ [c] := by
    unfold value_string
    rw [hend, hsplit, ← hlen, List.take_left]
  have hunit : unit_string (u ++ c :: v) = v := by
    unfold unit_string
    rw [hend, hsplit, ← hlen, List.drop_left]
  refine ⟨hend, hval, hunit, ?_⟩
  unfold _parse_with_pint
  rw [if_pos hb, hval, hunit]

theorem parse_with_pint_split_last_closing_witness :
    end_list ("[1, 2, 3".toList ++ ']' :: " kJ".toList) = "[1, 2, 3".toList.length + 1 ∧
    value_string ("[1, 2, 3".toList ++ ']' :: " kJ".toList) = "[1, 2, 3".toList ++ [']'] ∧
    unit_string ("[1, 2, 3".toList ++ ']' :: " kJ".toList) = " kJ".toList ∧
    _parse_with_pint ("[1, 2, 3".toList ++ ']' :: " kJ".toList) =
      Quantity.litMul ("[1, 2, 3".toList ++ [']'])
        (Quantity.fromString "pint" " kJ".toList) :=
  parse_with_pint_split_last_closing "[1, 2, 3".toList " kJ".toList ']'
    (Or.inl rfl) (Or.inr rfl) (by decide) (by decide)

/-- C2, counterexample: on the adversarial input `"[1] x)"`, which starts with
a bracket and contains a `]` (at index 2) and a later `)` (at index 5), the
code splits at index 6 (one past the `)`), not at index 3 (one past the `]`)
as the claim states. -/
theorem end_list_not_at_closing_sq_bracket :
    "[1] x)".toList.head? = some '[' ∧
    rfind "[1] x)".toList ']' = 2 ∧
    rfind "[1] x)".toList ')' = 5 ∧
    end_list "[1] x)".toList = 6 ∧
    ¬ end_list "[1] x)".toList = 2 + 1 := by decide

/-- C2, amended: for every string that starts with a bracket and contains both
a `]` and a later `)`, the split follows the last-of-`)`-or-`]` rule, so the
later `)` is the boundary, not the closing `]`: writing the input as
`u ++ ')' :: v` with no closing bracket in `v` and with `]` occurring in `u`,
the split point is one past that `)`, and the last `]` lies strictly before
the last `)`. -/
theorem end_list_later_paren_wins (u v : PyStr)
    (hb : (u ++ ')' :: v).head? = some '[' ∨ (u ++ ')' :: v).head? = some '(')
    (hmem : ']' ∈ u) (hv1 : ')' ∉ v) (hv2 : ']' ∉ v) :
    end_list (u ++ ')' :: v) = u.length + 1 ∧
    rfind (u ++ ')' :: v) ']' < rfind (u ++ ')' :: v) ')' := by
  have h1 : rfind (u ++ ')' :: v) ')' = (u.length : Int) :=
    rfind_append_last u v ')' hv1
  have h2 : rfind (u ++ ')' :: v) ']' = rfind u ']' :=
    rfind_append_of_ne u v ')' ']' (by decide) hv2
  refine ⟨end_list_append_last_closing u v ')' (Or.inl rfl) hv1 hv2, ?_⟩
  rw [h1, h2]
  exact rfind_lt_length u ']'

theorem end_list_later_paren_wins_witness :
    end_list ("[1] x".toList ++ ')' :: ([] : PyStr)) = "[1] x".toList.length + 1 ∧
    rfind ("[1] x".toList ++ ')' :: ([] : PyStr)) ']' <
      rfind ("[1] x".toList ++ ')' :: ([] : PyStr)) ')' :=
  end_list_later_paren_wins "[1] x".toList [] (Or.inl rfl)
    (by decide) (by decide) (by decide)

/-- C6: for every input string that starts with `[` or `(` but contains
neither `)` nor `]`, both `rfind` calls return `-1`, so the split point
degenerates to index 0: the payload substring is empty, the entire string
becomes the unit string, and `_parse_with_pint` performs the split without
raising and returns the usual literal-times-unit combination (the empty
payload is only handed onward, to `ast.literal_eval`, outside this split). -/
theorem parse_with_pint_degenerate_split (s : PyStr)
    (hb : s.head? = some '[' ∨ s.head? = some '(')
    (h1 : ')' ∉ s) (h2 : ']' ∉ s) :
    end_list s = 0 ∧ value_string s = [] ∧ unit_string s = s ∧
    _parse_with_pint s = Quantity.litMul [] (Quantity.fromString "pint" s) := by
  have hend : end_list s = 0 := by
    unfold end_list
    rw [rfind_of_not_mem s ')' h1, rfind_of_not_mem s ']' h2]
    decide
  have hval : value_string s = [] := by
    unfold value_string
    rw [hend, List.take_zero]
  have hunit : unit_string s = s := by
    unfold unit_string
    rw [hend, List.drop_zero]
  refine ⟨hend, hval, hunit, ?_⟩
  unfold _parse_with_pint
  rw [if_pos hb, hval, hunit]

theorem parse_with_pint_degenerate_split_witness :
    end_list "(abc".toList = 0 ∧ value_string "(abc".toList = [] ∧
    unit_string "(abc".toList = "(abc".toList ∧
    _parse_with_pint "(abc".toList =
      Quantity.litMul [] (Quantity.fromString "pint" "(abc".toList) :=
  parse_with_pint_degenerate_split "(abc".toList (Or.inr rfl)
    (by decide) (by decide)

/-- C10: for every input string that starts with `[` or `(`, the payload and
unit substrings are a partition of the input: concatenating them yields the
original string, and the split index lies between 0 and the string's length
inclusive. -/
theorem split_partition (s : PyStr)
    (hb : s.head? = some '[' ∨ s.head? = some '(') :
    value_string s ++ unit_string s = s ∧ end_list s ≤ s.length := by
  constructor
  · unfold value_string unit_string
    exact List.take_append_drop _ s
  · have h1 := rfind_lt_length s ')'
    have h2 := rfind_lt_length s ']'
    have h3 := rfind_ge_neg_one s ')'
    have h4 := rfind_ge_neg_one s ']'
    unfold end_list
    rcases le_total (rfind s ')' + 1) (rfind s ']' + 1) with h | h
    · rw [max_eq_right h]
      omega
    · rw [max_eq_left h]
      omega

theorem split_partition_witness :
    value_string "[1] m".toList ++ unit_string "[1] m".toList = "[1] m".toList ∧
    end_list "[1] m".toList ≤ "[1] m".toList.length :=
  split_partition "[1] m".toList (Or.inl rfl)

/-- Reduction of `parse` on a string input once both digestions succeeded. -/
theorem parse_str_eq (s : PyStr) (p t : Option String) (pf tf : String)
    (hp : digestParser p = .ok pf) (ht : digestToForm t = .ok tf) :
    parse (.str s) p t = parse_dispatch pf tf s := by
  unfold parse
  rw [hp, ht]
  rfl

/-- C4: for every non-string value passed as the first argument and every pair
of parser and target-form candidates (digestible or not), `parse` fails with
`BadCallError('string')`: the `isinstance` guard fires before either digestion
and nothing is coerced. -/
theorem parse_bad_call_nonstring (v : PyValue) (p t : Option String)
    (h : v.isStr = false) :
    parse v p t = .error (.badCall "string") := by
  unfold parse
  rw [h]
  rfl

theorem parse_bad_call_nonstring_witness :
    parse (.intVal 123) (some "no such form!") (some "junk") =
      .error (.badCall "string") :=
  parse_bad_call_nonstring (.intVal 123) (some "no such form!") (some "junk") rfl

/-- C3: for every string input, whenever the parser candidate digests to
`openmm.unit` or to `unyt` and the target-form candidate digests to anything
at all, `parse` fails with `LibraryWithoutParserError` carrying that library's
name; the result is the same for every input string, so no parsing of the
string is attempted. -/
theorem parse_no_parsing_library (s : PyStr) (p t : Option String)
    (lib tf : String) (hp : digestParser p = .ok lib)
    (hlib : lib = "openmm.unit" ∨ lib = "unyt")
    (ht : digestToForm t = .ok tf) :
    parse (.str s) p t = .error (.libraryWithoutParser lib) := by
  rw [parse_str_eq s p t lib tf hp ht]
  rcases hlib with h | h <;> subst h <;>
    · unfold parse_dispatch
      rw [if_neg (by decide)]
      simp

theorem parse_no_parsing_library_witness :
    parse (.str "1 meter".toList) (some "openmm.unit") (some "pint") =
      .error (.libraryWithoutParser "openmm.unit") :=
  parse_no_parsing_library "1 meter".toList (some "openmm.unit") (some "pint")
    "openmm.unit" "pint" rfl (Or.inl rfl) rfl

/-- C5: whenever the digested parser and target-form identifiers reach no
explicit branch of the dispatch — the parser is `pint` but the target form is
none of `pint`, `openmm.unit`, `string`, `unyt`; or the parser is none of
`pint`, `openmm.unit`, `unyt` — the dispatch fails with
`NotImplementedParsingError` carrying the parser form and the target form, and
never returns a value. -/
theorem parse_dispatch_not_implemented (pf tf : String) (s : PyStr)
    (h : (pf = "pint" ∧ tf ≠ "pint" ∧ tf ≠ "openmm.unit" ∧ tf ≠ "string" ∧
            tf ≠ "unyt") ∨
         (pf ≠ "pint" ∧ pf ≠ "openmm.unit" ∧ pf ≠ "unyt")) :
    parse_dispatch pf tf s = .error (.notImplementedParsing pf tf) := by
  rcases h with ⟨h1, h2, h3, h4, h5⟩ | ⟨h1, h2, h3⟩
  · subst h1
    unfold parse_dispatch
    rw [if_pos rfl, if_neg h2, if_neg h3, if_neg h4, if_neg h5]
  · unfold parse_dispatch
    rw [if_neg h1, if_neg h2, if_neg h3]

theorem parse_dispatch_not_implemented_witness :
    parse_dispatch "string" "pint" "1 m".toList =
      .error (.notImplementedParsing "string" "pint") :=
  parse_dispatch_not_implemented "string" "pint" "1 m".toList
    (Or.inr ⟨by decide, by decide, by decide⟩)

/-- C7: for every string input whose parser candidate digests to `pint`, if
the target-form candidate digests to `pint` the result is exactly the
pint-native parse of the string, and if it digests to `openmm.unit`, `string`
or `unyt` the result is exactly that pint-native parse routed through the
translation-matrix converter for the pair `('pint', to_form)`. -/
theorem parse_pint_routing (s : PyStr) (p t : Option String) (tf : String)
    (hp : digestParser p = .ok "pint") (ht : digestToForm t = .ok tf) :
    (tf = "pint" → parse (.str s) p t = .ok (_parse_with_pint s)) ∧
    ((tf = "openmm.unit" ∨ tf = "string" ∨ tf = "unyt") →
      parse (.str s) p t =
        .ok (.conv "pint" tf (_parse_with_pint s))) := by
  have hred := parse_str_eq s p t "pint" tf hp ht
  constructor
  · intro h
    subst h
    rw [hred]
    unfold parse_dispatch
    rw [if_pos rfl, if_pos rfl]
  · intro h
    rcases h with h | h | h <;> subst h <;>
      · rw [hred]
        unfold parse_dispatch
        simp

theorem parse_pint_routing_witness :
    parse (.str "10 nm".toList) (some "pint") (some "string") =
      .ok (.conv "pint" "string" (_parse_with_pint "10 nm".toList)) :=
  (parse_pint_routing "10 nm".toList (some "pint") (some "string") "string"
    rfl rfl).2 (Or.inr (Or.inl rfl))

/-- Name resolution inside a Python f-string: look the name up among the local
bindings in scope; an unbound name raises `NameError`, modelled as `none`. -/
def fstring_lookup (env : List (String × String)) (n : String) :
    Option String :=
  (env.find? (fun b => b.fst == n)).map Prod.snd

/-- Embeds the message construction of `UnknownFormError.__init__` in
src/pyunitwizard/_private/exceptions/no_standards_error.py.  The constructor
takes no argument beyond `self`; its string-valued local bindings are
`caller_name` (from the stack), `api_doc` (the empty string) and the imported
`__github_issues_web__` (which the source imports from the foreign package
`sabueso`).  The message f-string interpolates `method_name`, `api_doc` and
`__github_issues_web__`; `method_name` is bound nowhere in the constructor. -/
def unknownFormErrorMessage (caller_name github_issues_web : String) :
    Option String :=
  let env : List (String × String) :=
    [("caller_name", caller_name), ("api_doc", ""),
     ("__github_issues_web__", github_issues_web)]
  match fstring_lookup env "method_name", fstring_lookup env "api_doc",
      fstring_lookup env "__github_issues_web__" with
  | some m, some a, some g =>
    some ("The input quantity in \"" ++ m ++ "\" has an unknown form. Check "
      ++ a ++ " for more information. If you still need help, open a new issue in "
      ++ g ++ ".")
  | _, _, _ => none

/-- C8: the message of `UnknownFormError` can never be produced, let alone
name the offending candidate and the calling context: whatever caller name the
stack yields and whatever the imported issues link is, the f-string references
the unbound name `method_name`, so constructing the exception raises
`NameError` instead of building a message (and the constructor accepts no
argument through which the rejected candidate could reach the message). -/
theorem unknownFormError_message_unbound_name
    (caller_name github_issues_web : String) :
    unknownFormErrorMessage caller_name github_issues_web = none := rfl

/-- Embeds the message construction of `NoStandardsError.__init__` in
src/pyunitwizard/_private/exceptions/no_standards_error.py: the constructor
resolves `caller_name` from the stack and binds `api_doc = ''`, but the
message f-string interpolates only `api_doc` and `__github_issues_web__`. -/
def noStandardsErrorMessage (caller_name github_issues_web : String) :
    String :=
  let api_doc := ""
  "The input quantity method has no standard. "
    ++ "A complete set of standard units need to be defined. "
    ++ "Check " ++ api_doc ++ " for more information. "
    ++ "If you still need help, open a new issue in " ++ github_issues_web ++ "."

/-- C9: the message of `NoStandardsError` does not include the name of the
calling function: although the constructor resolves the caller's name from the
active stack, the message it builds is the same for every caller name. -/
theorem noStandardsError_message_ignores_caller (c₁ c₂ g : String) :
    noStandardsErrorMessage c₁ g = noStandardsErrorMessage c₂ g := rfl

/-- Embeds the message construction of `LibraryNotFoundError.__init__`: this
message does interpolate the resolved caller name and the issues link. -/
def libraryNotFoundErrorMessage (library caller_name github_issues_web : String) :
    String :=
  "The python library " ++ library ++ " was not found. "
    ++ "Although " ++ library ++ " is not considered a dependency, it needs "
    ++ "to be installed to execute the " ++ caller_name
    ++ " method the way you require. "
    ++ "If you still need help, open a new issue in " ++ github_issues_web ++ "."

/-- Embeds the message construction of `LibraryWithoutParserError.__init__`,
which repeats the `LibraryNotFoundError` text verbatim: it interpolates the
library name, the resolved caller name and the issues link. -/
def libraryWithoutParserErrorMessage
    (library caller_name github_issues_web : String) : String :=
  "The python library " ++ library ++ " was not found. "
    ++ "Although " ++ library ++ " is not considered a dependency, it needs "
    ++ "to be installed to execute the " ++ caller_name
    ++ " method the way you require. "
    ++ "If you still need help, open a new issue in " ++ github_issues_web ++ "."

end PUW
